import Mathlib

/-!
Verification development for the `deei` dependency-injection engine
(`src/deei/__init__.py` and `src/deei/helpers.py`).

The Python code is shallowly embedded as follows.

* A Python class that may be handed to the engine is a `Decl` held in an
  ambient environment `Env`; a class is identified by its index in the
  environment, which models Python object identity (the membership test
  `import_ in module_metadata.exports` compares class objects).  A `Decl`
  records the class name, the parameter names of its `__init__` type hints
  (the dependency manifest, with the `return` marker already excluded as in
  `DeeiContext.__aenter__`), whether the constructed instance exposes
  `__aenter__`/`__aexit__` (a scoped resource), whether its release hook or
  constructor raises, and - when the class carries `@module(...)` metadata -
  the `providers` / `imports` / `exports` collections as class indices.
* One `DeeiContext` node exists per occurrence of a target in the eagerly
  built context tree; a node is addressed by its `List Nat` path from the
  root (children are numbered providers first, then imports, exactly the
  two loops of `DeeiContext.__init__`).  The node-first list of class
  indices along the parent chain stands for the linked `_parent` pointers;
  the empty chain is `DeeiNullContext`.
* The mutable parts (`_dependencies`, the `AsyncExitStack`, `_aentered`,
  `_target_instance`) live in a global `St`, an association from paths to
  node states plus a fresh-instance counter and an event trace.  Python
  object identity of constructed instances is a `Nat` allocated at
  construction time; constructor calls, acquire hooks and release hooks are
  recorded as events.
* Recursive methods are evaluated with explicit fuel standing for the
  Python call stack: the outcome `oom` means the call did not finish within
  the given stack budget, and an execution that yields `oom` for every fuel
  diverges (Python: `RecursionError`).  Fuel is also consumed on loop steps,
  which only shifts the budget needed by a terminating run.
* Python `str.lower` is modelled on the ASCII range, which is the range the
  word-boundary regex of `helpers.py` concerns; on every code point, real
  `str.lower` likewise never produces an ASCII capital, which is the only
  fact the development uses.
-/

namespace Deei

/-- The character class `[A-Z]` of `_camel_case_word_bound_pattern` in
`src/deei/helpers.py` (line 10). -/
def isAsciiUpper (c : Char) : Bool := 65 ≤ c.toNat && c.toNat ≤ 90

/-- Python `str.lower` on a single character, ASCII range (see module
docstring): capitals `A`-`Z` shift by 32, everything else is unchanged. -/
def charLower (c : Char) : Char :=
  if isAsciiUpper c then Char.ofNat (c.toNat + 32) else c

/-- One left-to-right pass of
`_camel_case_word_bound_pattern.sub(r'\x5c1_\x5c2', s)`
(`helpers.py` line 14): at each position where a non-capital is immediately
followed by a capital, an underscore is inserted and scanning resumes after
the consumed two-character match, as `re.sub` does. -/
def boundSub : List Char → List Char
  | [] => []
  | [c] => [c]
  | a :: b :: rest =>
    if !isAsciiUpper a && isAsciiUpper b then a :: '_' :: b :: boundSub rest
    else a :: boundSub (b :: rest)

/-- `camelcase_into_snakecase` (`helpers.py` lines 13-14):
`pattern.sub(r'\x5c1_\x5c2', s).lower()`. -/
def camelcase_into_snakecase (s : String) : String :=
  String.mk ((boundSub s.data).map charLower)

/-- A Python class as the engine sees it: class name, dependency manifest
(the non-`return` keys of `get_type_hints(cls.__init__)`), scoped-resource
capability (`hasattr __aenter__ and __aexit__`), whether the release hook
raises, whether the constructor raises, presence of `@module` metadata
(`is_module`), and the three `ModuleMetadata` collections as indices of
classes in the ambient environment.  For a class without module metadata
the three lists are irrelevant: `DeeiContext.__init__` never reads them
(the `ctx...` accessors below mirror that). -/
structure Decl where
  clsName : String
  manifest : List String
  isScoped : Bool
  releaseFails : Bool
  constructFails : Bool
  isModule : Bool
  providers : List Nat
  imports : List Nat
  exports : List Nat
deriving DecidableEq

/-- The ambient collection of declared classes; a class is identified by its
index, modelling Python object identity. -/
abbrev Env := List Decl

/-- An out-of-range index behaves as an inert plain (non-module) class;
executions started from a well-formed root never look one up. -/
def defaultDecl : Decl := ⟨"", [], false, false, false, false, [], [], []⟩

def classOf (env : Env) (i : Nat) : Decl := (env[i]?).getD defaultDecl

/-- The `_providers` child contexts built by `DeeiContext.__init__`
(lines 115-121): one child per declared provider, only for module targets. -/
def ctxProviders (env : Env) (i : Nat) : List Nat :=
  if (classOf env i).isModule then (classOf env i).providers else []

/-- The `_imports` child contexts built by `DeeiContext.__init__`
(lines 123-125). -/
def ctxImports (env : Env) (i : Nat) : List Nat :=
  if (classOf env i).isModule then (classOf env i).imports else []

/-- The `_exports` context list of `DeeiContext.__init__` (lines 123-127):
exactly those import children whose class also occurs in
`module_metadata.exports`.  Providers named in `exports` are never added:
the loop ranges over `imports` only. -/
def ctxExports (env : Env) (i : Nat) : List Nat :=
  if (classOf env i).isModule then
    (classOf env i).imports.filter (fun j => (classOf env i).exports.contains j)
  else []

/-- `DeeiContext.get_name` (lines 132-133) and `get_dependency_name`
(lines 56-57): the snake-case derived name of the target class. -/
def get_name (env : Env) (i : Nat) : String :=
  camelcase_into_snakecase (classOf env i).clsName

/-- A pending visibility computation.  `canProvide chain` is
`DeeiContext.can_provide` on the node whose parent chain (node-first list
of class indices, root last) is `chain`; the empty chain is
`DeeiNullContext`.  `provideScan imports pc` is the remainder of the
`for import_ in self._imports` loop (lines 140-142) of the node with chain
`pc`; `canExport chain` is `DeeiContext.can_export` (lines 149-161); and
`exportScan exports pc` is the remainder of its `for export in
self._exports` loop (lines 157-159).  Both loops call `can_provide` on a
child context whose parent is the looping node, hence the mutual recursion
through the parent chain `pc`. -/
inductive VisQuery where
  | canProvide (chain : List Nat)
  | provideScan (imports : List Nat) (pc : List Nat)
  | canExport (chain : List Nat)
  | exportScan (exports : List Nat) (pc : List Nat)

/-- Fuel-indexed evaluation of the visibility queries `can_provide`
(lines 135-147) and `can_export` (lines 149-161); `none` means the call
stack budget ran out.  `can_provide` checks own providers by derived name,
then `import_.can_provide(name)` for every import child (line 141 - the
source really calls `can_provide` there, not `can_export`), then
`self._parent.can_provide(name)`.  `can_export` returns `False` for
non-modules, `True` on an own-provider name match (regardless of the
`exports` declaration), else `export.can_provide(name)` for each
re-exported import child (line 158). -/
def visRun (env : Env) : Nat → VisQuery → String → Option Bool
  | _, .canProvide [], _ => some false
  | _, .canExport [], _ => some false
  | _, .provideScan [] _, _ => some false
  | _, .exportScan [] _, _ => some false
  | 0, _, _ => none
  | fuel+1, .canProvide (t :: anc), name =>
    if (ctxProviders env t).any (fun p => get_name env p == name) then some true
    else
      match visRun env fuel (.provideScan (ctxImports env t) (t :: anc)) name with
      | none => none
      | some true => some true
      | some false => visRun env fuel (.canProvide anc) name
  | fuel+1, .provideScan (i :: rest) pc, name =>
    match visRun env fuel (.canProvide (i :: pc)) name with
    | none => none
    | some true => some true
    | some false => visRun env fuel (.provideScan rest pc) name
  | fuel+1, .canExport (t :: anc), name =>
    if !(classOf env t).isModule then some false
    else if (ctxProviders env t).any (fun p => get_name env p == name) then some true
    else visRun env fuel (.exportScan (ctxExports env t) (t :: anc)) name
  | fuel+1, .exportScan (e :: rest) pc, name =>
    match visRun env fuel (.canProvide (e :: pc)) name with
    | none => none
    | some true => some true
    | some false => visRun env fuel (.exportScan rest pc) name

/-- `DeeiContext.can_provide` / `DeeiNullContext.can_provide` of the node
with parent chain `chain` (node first, root last; `[]` is the null
context). -/
def can_provide (env : Env) (fuel : Nat) (chain : List Nat) (name : String) : Option Bool :=
  visRun env fuel (.canProvide chain) name

/-- `DeeiContext.can_export` / `DeeiNullContext.can_export` of the node
with parent chain `chain`. -/
def can_export (env : Env) (fuel : Nat) (chain : List Nat) (name : String) : Option Bool :=
  visRun env fuel (.canExport chain) name

/-- One callback registered on an `AsyncExitStack`:
`enter_async_context(provider_or_import_context)` registers the child
context's `__aexit__` (lines 172 and 178), and
`enter_async_context(instance)` registers a scoped instance's release hook
(line 201), remembered together with whether that hook raises. -/
inductive StackEntry where
  | ctx (path : List Nat)
  | res (id : Nat) (releaseFails : Bool)
deriving DecidableEq

/-- Observable effects of user code: a constructor call
(`self._target(**to_inject)`, line 197), a scoped instance's acquire hook
(`enter_async_context(instance)`, line 201) and its release hook (run by
`AsyncExitStack.aclose`, line 211). -/
inductive Event where
  | constructed (clsName : String) (id : Nat)
  | acquired (id : Nat)
  | released (id : Nat)
deriving DecidableEq

/-- Exceptions: `InjectionError` from `DeeiContext.get_dependency`
(line 185) carrying the requesting node's class name and the missing
dependency name; `InjectionError` from `DeeiNullContext.get_dependency`
(line 88); an exception raised by a user constructor; an exception raised
by a release hook.  `invalidPath` is a modelling artifact for addressing a
node outside the built tree; executions started at existing nodes never
produce it. -/
inductive Err where
  | injection (nodeCls : String) (dep : String)
  | nullInjection (dep : String)
  | construct (clsName : String)
  | release (id : Nat)
  | invalidPath
deriving DecidableEq

/-- Result of an awaited call: normal return, a propagating exception, or
exhaustion of the modelled call stack (`oom`). -/
inductive Outcome (α : Type) where
  | ok (v : α)
  | err (e : Err)
  | oom
deriving DecidableEq

/-- Mutable state of one `DeeiContext`: `_dependencies` (association list,
newest entry first, looked up front-to-back so it behaves as the dict),
the `AsyncExitStack` callbacks (`stack`, head = most recently registered),
`_aentered`, and `_target_instance`. -/
structure NodeSt where
  deps : List (String × Nat)
  stack : List StackEntry
  aentered : Bool
  targetInstance : Option Nat
deriving DecidableEq

def initNodeSt : NodeSt := ⟨[], [], false, none⟩

/-- Global mutable state: per-path node states (absent paths are in their
initial state), the next fresh instance identity, and the event trace in
chronological order. -/
structure St where
  nodes : List (List Nat × NodeSt)
  nextId : Nat
  events : List Event
deriving DecidableEq

def initSt : St := ⟨[], 0, []⟩

def depsLookup : List (String × Nat) → String → Option Nat
  | [], _ => none
  | (k, v) :: rest, name => if k = name then some v else depsLookup rest name

def nodesLookup : List (List Nat × NodeSt) → List Nat → Option NodeSt
  | [], _ => none
  | (p, n) :: rest, q => if p = q then some n else nodesLookup rest q

def nodeAt (st : St) (p : List Nat) : NodeSt := (nodesLookup st.nodes p).getD initNodeSt

def updNode (st : St) (p : List Nat) (f : NodeSt → NodeSt) : St :=
  ⟨(p, f (nodeAt st p)) :: st.nodes.filter (fun q => q.1 != p), st.nextId, st.events⟩

/-- `self._exit_stack` registration: push a callback (head = newest). -/
def pushStack (st : St) (p : List Nat) (e : StackEntry) : St :=
  updNode st p (fun n => ⟨n.deps, e :: n.stack, n.aentered, n.targetInstance⟩)

/-- `self._dependencies[name] = value` (dict assignment; the fresh entry is
consed in front and shadows any older one). -/
def cacheDep (st : St) (p : List Nat) (name : String) (v : Nat) : St :=
  updNode st p (fun n => ⟨(name, v) :: n.deps, n.stack, n.aentered, n.targetInstance⟩)

/-- End of `DeeiContext.__aenter__` (lines 203-206): retain the instance and
mark the node entered. -/
def setEntered (st : St) (p : List Nat) (id : Nat) : St :=
  updNode st p (fun n => ⟨n.deps, n.stack, true, some id⟩)

/-- `AsyncExitStack.aclose` empties the callback stack as it unwinds. -/
def clearStack (st : St) (p : List Nat) : St :=
  updNode st p (fun n => ⟨n.deps, [], n.aentered, n.targetInstance⟩)

def logEvent (st : St) (e : Event) : St := ⟨st.nodes, st.nextId, st.events ++ [e]⟩

def allocId (st : St) : St := ⟨st.nodes, st.nextId + 1, st.events⟩

/-- Children of a node, numbered providers first then imports, exactly the
construction order of `DeeiContext.__init__`. -/
def childAt (env : Env) (i : Nat) (k : Nat) : Option Nat :=
  (ctxProviders env i ++ ctxImports env i)[k]?

/-- The node-first, root-last list of class indices along the parent chain
of the node addressed by `path`; `none` when `path` leaves the built tree. -/
def chainAt (env : Env) (root : Nat) : List Nat → Option (List Nat)
  | [] => some [root]
  | k :: rest =>
    match childAt env root k with
    | none => none
    | some c => (chainAt env c rest).map (fun ch => ch ++ [root])

/-- The `for provider in self._providers` loop of `get_dependency`
(lines 170-174): index of the first provider child whose derived name
matches, if any. -/
def findProvider (env : Env) (name : String) : List Nat → Option Nat
  | [] => none
  | p :: rest =>
    if get_name env p = name then some 0
    else (findProvider env name rest).map (fun k => k + 1)

/-- The `for import_ in self._imports` loop of `get_dependency`
(lines 176-180): each import child is asked `can_export(name)`; the chain
of the import child is the child consed onto the asking node's chain.
`none` = a `can_export` call exhausted the stack budget; `some none` = the
loop fell through; `some (some j)` = the first exporting import has
position `j`. -/
def findExporter (env : Env) (fuel : Nat) (name : String) (pc : List Nat) :
    List Nat → Option (Option Nat)
  | [] => some none
  | i :: rest =>
    match can_export env fuel (i :: pc) name with
    | none => none
    | some true => some (some 0)
    | some false => (findExporter env fuel name pc rest).map (fun o => o.map (fun k => k + 1))

/-- A pending stateful computation: `getDep path name` is
`DeeiContext.get_dependency` (lines 166-185) on the node at `path`;
`enter path` is `DeeiContext.__aenter__` (lines 187-207); `resolveAll path
names` is the manifest-resolution loop of `__aenter__` (lines 191-195). -/
inductive Cmd where
  | getDep (path : List Nat) (name : String)
  | enter (path : List Nat)
  | resolveAll (path : List Nat) (names : List String)

/-- Fuel-indexed execution of the resolution engine.

`getDep`: cached value first (line 167); else the first matching own
provider child is entered through the exit stack and its instance cached
(lines 170-174); else the first import child whose `can_export(name)` holds
is entered through the exit stack and the request delegated to it, caching
the result (lines 176-180); else, when `self._parent.can_provide(name)`,
the request is delegated to the parent *without* caching (lines 182-183);
else `InjectionError` (line 185).  The parent of the root is
`DeeiNullContext`, whose `can_provide` is `False` and whose
`get_dependency` raises (lines 87-88, 93-94).

`enter`: re-entry on an entered node is a no-op returning the retained
instance (lines 188-189, 163-164); otherwise every manifest entry is
resolved sequentially via `get_dependency` (lines 191-195), the target is
constructed (line 197), a scoped instance is entered on the node's own
exit stack - acquire hook, then registration of the release hook
(lines 199-201) - and the node is marked entered (lines 203-206).
A failure propagates immediately with all effects so far retained. -/
def run (env : Env) : Nat → St → Nat → Cmd → St × Outcome Nat
  | 0, st, _, _ => (st, .oom)
  | fuel+1, st, root, .getDep path name =>
    match depsLookup (nodeAt st path).deps name with
    | some v => (st, .ok v)
    | none =>
      match chainAt env root path with
      | none => (st, .err .invalidPath)
      | some [] => (st, .err .invalidPath)
      | some (t :: anc) =>
        match findProvider env name (ctxProviders env t) with
        | some k =>
          match run env fuel st root (.enter (path ++ [k])) with
          | (st1, .ok v) =>
            (cacheDep (pushStack st1 path (.ctx (path ++ [k]))) path name v, .ok v)
          | (st1, .err e) => (st1, .err e)
          | (st1, .oom) => (st1, .oom)
        | none =>
          match findExporter env fuel name (t :: anc) (ctxImports env t) with
          | none => (st, .oom)
          | some (some j) =>
            match run env fuel st root (.enter (path ++ [(ctxProviders env t).length + j])) with
            | (st1, .ok _) =>
              match run env fuel (pushStack st1 path (.ctx (path ++ [(ctxProviders env t).length + j]))) root
                  (.getDep (path ++ [(ctxProviders env t).length + j]) name) with
              | (st2, .ok v) => (cacheDep st2 path name v, .ok v)
              | (st2, .err e) => (st2, .err e)
              | (st2, .oom) => (st2, .oom)
            | (st1, .err e) => (st1, .err e)
            | (st1, .oom) => (st1, .oom)
          | some none =>
            match can_provide env fuel anc name with
            | none => (st, .oom)
            | some false => (st, .err (.injection (classOf env t).clsName name))
            | some true =>
              match path with
              | [] => (st, .err (.nullInjection name))
              | _ :: _ => run env fuel st root (.getDep path.dropLast name)
  | fuel+1, st, root, .enter path =>
    match chainAt env root path with
    | none => (st, .err .invalidPath)
    | some [] => (st, .err .invalidPath)
    | some (t :: _) =>
      if (nodeAt st path).aentered then (st, .ok ((nodeAt st path).targetInstance.getD 0))
      else
        match run env fuel st root (.resolveAll path (classOf env t).manifest) with
        | (st1, .err e) => (st1, .err e)
        | (st1, .oom) => (st1, .oom)
        | (st1, .ok _) =>
          if (classOf env t).constructFails then (st1, .err (.construct (classOf env t).clsName))
          else
            let st2 := logEvent (allocId st1) (.constructed (classOf env t).clsName st1.nextId)
            let st3 :=
              if (classOf env t).isScoped then
                pushStack (logEvent st2 (.acquired st1.nextId)) path
                  (.res st1.nextId (classOf env t).releaseFails)
              else st2
            (setEntered st3 path st1.nextId, .ok st1.nextId)
  | _+1, st, _, .resolveAll _ [] => (st, .ok 0)
  | fuel+1, st, root, .resolveAll path (n :: rest) =>
    match run env fuel st root (.getDep path n) with
    | (st1, .ok _) => run env fuel st1 root (.resolveAll path rest)
    | (st1, .err e) => (st1, .err e)
    | (st1, .oom) => (st1, .oom)

/-- `DeeiContext.get_dependency` on the node at `path` of the tree rooted
at class `root`. -/
def get_dependency (env : Env) (fuel : Nat) (st : St) (root : Nat) (path : List Nat)
    (name : String) : St × Outcome Nat :=
  run env fuel st root (.getDep path name)

/-- `DeeiContext.__aenter__` on the node at `path`; the returned value is
the retained target instance (`get_target`, lines 163-164). -/
def aenter (env : Env) (fuel : Nat) (st : St) (root : Nat) (path : List Nat) :
    St × Outcome Nat :=
  run env fuel st root (.enter path)

/-- A pending teardown computation: `closeAll entries` is the remainder of
`AsyncExitStack.aclose` unwinding `entries` (newest first); `closeOne e`
invokes one registered callback. -/
inductive CloseCmd where
  | closeAll (entries : List StackEntry)
  | closeOne (e : StackEntry)

/-- `AsyncExitStack.aclose` semantics used by `DeeiContext.__aexit__`
(line 211): callbacks run from most recently registered to first
registered; a callback that raises does not stop the remaining callbacks,
and the exception raised by the latest-run failing callback is the one
that finally propagates (earlier ones are attached as context).  A
registered child context's callback is its `__aexit__`, which closes that
child's own stack recursively (lines 209-212); a registered scoped
instance's callback is its release hook, recorded as a `released` event
whether or not the hook then raises. -/
def closeRun : Nat → St → CloseCmd → St × Outcome Unit
  | _, st, .closeAll [] => (st, .ok ())
  | _, st, .closeOne (.res id fails) =>
    (logEvent st (.released id), if fails then .err (.release id) else .ok ())
  | 0, st, _ => (st, .oom)
  | fuel+1, st, .closeAll (e :: rest) =>
    match closeRun fuel st (.closeOne e) with
    | (st1, .oom) => (st1, .oom)
    | (st1, r1) =>
      match closeRun fuel st1 (.closeAll rest) with
      | (st2, .oom) => (st2, .oom)
      | (st2, .err e2) => (st2, .err e2)
      | (st2, .ok _) => (st2, r1)
  | fuel+1, st, .closeOne (.ctx p) =>
    closeRun fuel (clearStack st p) (.closeAll (nodeAt st p).stack)

/-- `DeeiContext.__aexit__` (lines 209-212): close the node's exit stack. -/
def aexit (fuel : Nat) (st : St) (path : List Nat) : St × Outcome Unit :=
  closeRun fuel (clearStack st path) (.closeAll (nodeAt st path).stack)

/-- `bootstrap(target)` (lines 10-13): `async with DeeiContext(target) as
context: yield await context.get_target()`.  On successful entry the root
instance is yielded and, when the caller's scope exits, the root context's
`__aexit__` closes the stack.  When `__aenter__` raises, Python's
`async with` does *not* invoke `__aexit__`: the exception propagates out of
`bootstrap` with no unwind of the root exit stack. -/
def bootstrapRun (env : Env) (fuel : Nat) (root : Nat) : St × Outcome Nat :=
  match run env fuel initSt root (.enter []) with
  | (st, .ok i) =>
    match aexit fuel st [] with
    | (st2, .ok _) => (st2, .ok i)
    | (st2, .err e) => (st2, .err e)
    | (st2, .oom) => (st2, .oom)
  | (st, .err e) => (st, .err e)
  | (st, .oom) => (st, .oom)

/-- The node addressed by `q` matches the name `n` neither through an own
provider child (the loop of lines 170-174 falls through) nor through an
exporting import child (the loop of lines 176-180 falls through, at every
stack budget).  These are static facts about the module graph: they do not
depend on the mutable state. -/
def StaticNoMatch (env : Env) (root : Nat) (q : List Nat) (n : String) : Prop :=
  ∀ t anc, chainAt env root q = some (t :: anc) →
    findProvider env n (ctxProviders env t) = none ∧
    ∀ j ∈ ctxImports env t, ∀ f, can_export env f (j :: t :: anc) n ≠ some true

/-- How a `get_dependency` result is anchored in a state: either the value
is cached on the node itself, or the node statically matches nothing and
the value is anchored at its parent (the delegation of lines 182-183,
which does not cache on the delegating node). -/
inductive ResolvesTo (env : Env) (root : Nat) (st : St) (n : String) (v : Nat) :
    List Nat → Prop where
  | cached (q : List Nat) :
      depsLookup (nodeAt st q).deps n = some v → ResolvesTo env root st n v q
  | up (q : List Nat) :
      depsLookup (nodeAt st q).deps n = none →
      StaticNoMatch env root q n →
      ResolvesTo env root st n v q.dropLast →
      ResolvesTo env root st n v q

/-- C1 scenario: class `X` is a plain provider, module `A` declares it with
an empty `exports` list, module `B` imports `A`.  Indices: `X` = 0,
`A` = 1, `B` = 2. -/
def envC1 : Env := [
  ⟨"X", [], false, false, false, false, [], [], []⟩,
  ⟨"A", [], false, false, false, true, [0], [], []⟩,
  ⟨"B", [], false, false, false, true, [], [1], []⟩]

/-- C2 scenario: `P1` is a scoped resource, `P2`'s constructor raises, the
root module `Root` lists both as providers and depends on `p1` then `p2`.
Indices: `P1` = 0, `P2` = 1, `Root` = 2. -/
def envC2 : Env := [
  ⟨"P1", [], true, false, false, false, [], [], []⟩,
  ⟨"P2", [], false, false, true, false, [], [], []⟩,
  ⟨"Root", ["p1", "p2"], false, false, false, true, [0, 1], [], []⟩]

/-- C3 scenario: module `BThree` imports the empty module `AThree`.
Indices: `AThree` = 0, `BThree` = 1. -/
def envC3 : Env := [
  ⟨"AThree", [], false, false, false, true, [], [], []⟩,
  ⟨"BThree", [], false, false, false, true, [], [0], []⟩]

/-- C4 witness scenario: module `MFour` provides `XFour`.
Indices: `XFour` = 0, `MFour` = 1. -/
def envC4 : Env := [
  ⟨"XFour", [], false, false, false, false, [], [], []⟩,
  ⟨"MFour", [], false, false, false, true, [0], [], []⟩]

/-- The state after the first `get_dependency` call of the C4 witness. -/
def c4st1 : St := (get_dependency envC4 8 initSt 1 [] "xfour").1

/-- The state after the second `get_dependency` call of the C4 witness. -/
def c4st2 : St := (get_dependency envC4 8 c4st1 1 [] "xfour").1

/-- C5 scenario: module `MFive` provides `XFive` and `YFive`; `YFive`
depends on `xfive`, which only the parent can supply.  Indices:
`XFive` = 0, `YFive` = 1, `MFive` = 2; the node of `YFive` has path `[1]`. -/
def envC5 : Env := [
  ⟨"XFive", [], false, false, false, false, [], [], []⟩,
  ⟨"YFive", ["xfive"], false, false, false, false, [], [], []⟩,
  ⟨"MFive", [], false, false, false, true, [0, 1], [], []⟩]

/-- The state after the delegating `get_dependency` call of the C5
witness. -/
def c5st1 : St := (get_dependency envC5 32 initSt 2 [1] "xfive").1

/-- C6 scenario: root module `RSix` provides `PSix` and imports the empty
module `MSix`; nothing anywhere provides the name `zzz`.  Indices:
`PSix` = 0, `MSix` = 1, `RSix` = 2; the node of `PSix` has path `[0]`. -/
def envC6 : Env := [
  ⟨"PSix", [], false, false, false, false, [], [], []⟩,
  ⟨"MSix", [], false, false, false, true, [], [], []⟩,
  ⟨"RSix", [], false, false, false, true, [0], [1], []⟩]

/-- C8 scenario, parametric in the class names, in `XEight`'s manifest and
flags: `AEight` provides and exports `XEight`; `BEight` imports `AEight`
without re-exporting it; `CEight` imports `BEight`.  Indices: `XEight` = 0,
`AEight` = 1, `BEight` = 2, `CEight` = 3. -/
def envC8 (nX nA nB nC : String) (mX : List String) (sX rX cX : Bool) : Env := [
  ⟨nX, mX, sX, rX, cX, false, [], [], []⟩,
  ⟨nA, [], false, false, false, true, [0], [], [0]⟩,
  ⟨nB, [], false, false, false, true, [], [1], []⟩,
  ⟨nC, [], false, false, false, true, [], [2], []⟩]

/-- C9 scenario: module `BNine` imports the empty module `ANine`.
Indices: `ANine` = 0, `BNine` = 1. -/
def envC9 : Env := [
  ⟨"ANine", [], false, false, false, true, [], [], []⟩,
  ⟨"BNine", [], false, false, false, true, [], [0], []⟩]

/-- The identity of the release callback that `AsyncExitStack.aclose` lets
propagate from a stack of scoped-resource entries: the failing callback
closest to the bottom of the stack (the exception of every later-run
callback is chained onto it, and the last raised one wins). -/
def lastFailure : List (Nat × Bool) → Option Nat
  | [] => none
  | r :: rest =>
    match lastFailure rest with
    | some id => some id
    | none => if r.2 then some r.1 else none

/-- C7 witness scenario: a node whose exit stack holds two scoped-resource
callbacks - instance 9 registered first, instance 5 registered last
(stack head is the most recent entry), the latter with a failing release
hook. -/
def stC7 : St := ⟨[([], ⟨[], [.res 5 true, .res 9 false], true, some 0⟩)], 3,
  [Event.constructed "R" 0]⟩

theorem charOfNat_toNat (n : Nat) (h : n < 55296) : (Char.ofNat n).toNat = n := by
  have hv : Nat.isValidChar n := Or.inl h
  simp [Char.ofNat, hv, Char.ofNatAux, Char.toNat, UInt32.toNat, BitVec.toNat_ofNatLt]

/-- Lowercasing never yields an ASCII capital. -/
theorem isAsciiUpper_charLower (c : Char) : isAsciiUpper (charLower c) = false := by
  by_cases h : isAsciiUpper c
  · have h2 : 65 ≤ c.toNat ∧ c.toNat ≤ 90 := by simpa [isAsciiUpper] using h
    have h3 : (Char.ofNat (c.toNat + 32)).toNat = c.toNat + 32 :=
      charOfNat_toNat _ (by omega)
    have hc : charLower c = Char.ofNat (c.toNat + 32) := by simp [charLower, h]
    rw [hc]
    simp [isAsciiUpper, h3]
    omega
  · have hc : charLower c = c := by simp [charLower, h]
    rw [hc]
    simpa using h

/-- Lowercasing a single character is idempotent. -/
theorem charLower_idem (c : Char) : charLower (charLower c) = charLower c := by
  have h := isAsciiUpper_charLower c
  generalize charLower c = d at h ⊢
  simp [charLower, h]

/-- A string without ASCII capitals has no word boundary: the substitution
pass leaves it untouched. -/
theorem boundSub_fixed : ∀ l : List Char, (∀ c ∈ l, isAsciiUpper c = false) → boundSub l = l
  | [], _ => rfl
  | [_], _ => rfl
  | a :: b :: rest, h => by
    have hb : isAsciiUpper b = false := h b (by simp)
    have ih := boundSub_fixed (b :: rest) (fun c hc => h c (List.mem_cons_of_mem a hc))
    simp [boundSub, hb, ih]

/-- C10: the name-derivation helper `camelcase_into_snakecase` is
idempotent - applying it to its own output changes nothing, so derived
dependency names are stable under re-derivation. -/
theorem C10_camelcase_into_snakecase_idempotent (s : String) :
    camelcase_into_snakecase (camelcase_into_snakecase s) = camelcase_into_snakecase s := by
  unfold camelcase_into_snakecase
  have hdata : (String.mk ((boundSub s.data).map charLower)).data =
      (boundSub s.data).map charLower := rfl
  rw [hdata]
  have hfix : boundSub ((boundSub s.data).map charLower) = (boundSub s.data).map charLower := by
    refine boundSub_fixed _ ?_
    intro c hc
    rcases List.mem_map.mp hc with ⟨d, _, rfl⟩
    exact isAsciiUpper_charLower d
  rw [hfix, List.map_map]
  congr 1
  refine List.map_congr_left ?_
  intro a _
  exact charLower_idem a

/-- The driver of the `can_provide` divergence: a node `b` (with the null
context as parent) whose providers do not match `name` and whose sole
child import `a` has no matching provider and no imports of its own.  The
looping imports scan of `b.can_provide` calls `a.can_provide`, which falls back to
its parent - `b` itself - so the recursion never returns, at any stack
budget. -/
theorem importCycleNone (env : Env) (b a : Nat) (name : String)
    (h1 : (ctxProviders env b).any (fun p => get_name env p == name) = false)
    (h2 : ctxImports env b = [a])
    (h3 : (ctxProviders env a).any (fun p => get_name env p == name) = false)
    (h4 : ctxImports env a = []) :
    ∀ f, visRun env f (.canProvide [b]) name = none := by
  have key : ∀ f, visRun env f (.canProvide [b]) name = none ∧
      visRun env f (.provideScan [a] [b]) name = none ∧
      visRun env f (.canProvide [a, b]) name = none := by
    intro f
    induction f with
    | zero => exact ⟨rfl, rfl, rfl⟩
    | succ f ih =>
      obtain ⟨ihV, ihS, ihU⟩ := ih
      refine ⟨?_, ?_, ?_⟩
      · simp only [visRun, h1, h2, ihS, Bool.false_eq_true, if_false]
      · simp only [visRun, ihU]
      · simp only [visRun, h3, h4, ihV, Bool.false_eq_true, if_false]
  exact fun f => (key f).1

/-- C3: false on the code.  The claim describes `can_provide` as checking
own providers, then each import child's `can_export`, then the parent -
which would return `false` here: module `BThree` has no providers, its
sole import `AThree` does not export `zzz` (second conjunct), and `BThree`'s
parent is the null context (third conjunct).  But line 141 of the source
calls `import_.can_provide` instead of `can_export`, and the import child's
upward delegation re-enters `BThree.can_provide`: the call never returns a
boolean at any stack budget (Python: `RecursionError`). -/
theorem C3_can_provide_never_returns :
    (∀ fuel, can_provide envC3 fuel [1] "zzz" = none) ∧
    can_export envC3 8 [0, 1] "zzz" = some false ∧
    can_provide envC3 8 [] "zzz" = some false := by
  refine ⟨?_, by decide, by decide⟩
  intro fuel
  exact importCycleNone envC3 1 0 "zzz" (by decide) (by decide) (by decide) (by decide) fuel

/-- C9: false on the code.  `can_provide` does not terminate on the finite
two-module graph in which `BNine` imports the empty module `ANine` and the
requested name is resolvable nowhere: the import child's upward delegation
goes through `BNine` itself, and the evaluation returns no boolean at any
stack budget (Python: `RecursionError`). -/
theorem C9_can_provide_no_termination :
    ∀ fuel, can_provide envC9 fuel [1] "needle" = none := by
  intro fuel
  exact importCycleNone envC9 1 0 "needle" (by decide) (by decide) (by decide) (by decide) fuel

/-- C6: false on the code as a universal statement.  On the node of `PSix`
(path `[0]`) inside root module `RSix`, which also imports the empty module
`MSix`, the name `zzz` matches no own provider, no exporting import and no
parent-chain provider - yet no resolution error is ever raised: the
parent-delegation guard `self._parent.can_provide(name)` (line 182)
recurses forever through `RSix`'s import child, so `get_dependency` never
returns at any stack budget (Python: `RecursionError`), with the state -
in particular the dependency cache - untouched. -/
theorem C6_missing_name_never_raises :
    ∀ fuel, get_dependency envC6 fuel initSt 2 [0] "zzz" = (initSt, .oom) := by
  have hcp : ∀ f, visRun envC6 f (.canProvide [2]) "zzz" = none :=
    importCycleNone envC6 2 1 "zzz" (by decide) (by decide) (by decide) (by decide)
  intro fuel
  cases fuel with
  | zero => rfl
  | succ f =>
    show run envC6 (f + 1) initSt 2 (.getDep [0] "zzz") = (initSt, .oom)
    have h1 : depsLookup (nodeAt initSt [0]).deps "zzz" = none := by decide
    have h2 : chainAt envC6 2 [0] = some [0, 2] := by decide
    have h3 : findProvider envC6 "zzz" (ctxProviders envC6 0) = none := by decide
    have h4 : ctxImports envC6 0 = [] := by decide
    have h5 : can_provide envC6 f [2] "zzz" = none := hcp f
    simp only [run, h1, h2, h3, h4, findExporter, h5]

/-- C1: false on the code.  In the scenario where module `A` declares
provider `X` with `A.exports` empty and module `B` imports `A`, requesting
`X`'s derived name `x` on `B`'s context node does not raise: it returns
instance `1`, which is exactly the instance constructed by `A`'s provider
child `X` - `can_export` (lines 153-155) answers `True` for an own
provider whether or not it is listed in `exports`. -/
theorem C1_counterexample_export_not_enforced :
    (get_dependency envC1 32 initSt 2 [] "x").2 = .ok 1 ∧
    Event.constructed "X" 1 ∈ (get_dependency envC1 32 initSt 2 [] "x").1.events := by
  decide

/-- C1 as amended: requesting `x` on `B`'s node succeeds and returns `A`'s
instance of `X` (the very instance cached on `A`'s child node under `x`),
and `A`'s own node also resolves `x` from a fresh state - the `exports`
list does not restrict the visibility of a module's own providers, it only
gates which *imports* are re-exported. -/
theorem C1_amended_own_provider_always_exported :
    (get_dependency envC1 32 initSt 2 [] "x").2 = .ok 1 ∧
    depsLookup (nodeAt (get_dependency envC1 32 initSt 2 [] "x").1 [0]).deps "x" = some 1 ∧
    (get_dependency envC1 32 initSt 2 [0] "x").2 = .ok 0 := by
  decide

/-- C2: the code contradicts the claim.  `Root`'s manifest lists `p1` then
`p2`; `P1` is scoped and enters successfully (`constructed "P1" 0` then
`acquired 0`); `P2`'s constructor raises.  The failure propagates out of
`bootstrap` while `DeeiContext.__aenter__` is still running, and Python's
`async with` does not call `__aexit__` when `__aenter__` raises - so the
root exit stack, still holding `P1`'s context, is never closed: the final
trace contains no `released` event at all (the claim requires exactly one)
and no `constructed "Root"` event (that part holds). -/
theorem C2_partial_failure_skips_unwind :
    bootstrapRun envC2 32 2 =
      (⟨[([], ⟨[("p1", 0)], [.ctx [0]], false, none⟩),
         ([0], ⟨[], [.res 0 false], true, some 0⟩)], 1,
        [.constructed "P1" 0, .acquired 0]⟩, .err (.construct "P2")) := by
  decide

/-- C5: false on the code.  The node of `YFive` (path `[1]`) cannot satisfy
`xfive` itself and delegates to its parent `MFive`, which resolves it to
instance `0`; the value is returned, but line 183 returns the parent's
result directly - nothing is cached on the delegating node. -/
theorem C5_counterexample_delegation_not_cached :
    (get_dependency envC5 32 initSt 2 [1] "xfive").2 = .ok 0 ∧
    depsLookup (nodeAt (get_dependency envC5 32 initSt 2 [1] "xfive").1 [1]).deps "xfive" = none := by
  decide

/-- C8: for every choice of class names and of `XEight`'s manifest and
flags, in the graph where `AEight` provides and exports `XEight`, `BEight`
imports `AEight` without re-exporting it, and `CEight` imports `BEight`,
requesting `XEight`'s derived name on `CEight`'s context node raises the
resolution error naming `CEight` and the request, at every sufficient stack
budget, leaving the state untouched: `BEight.can_export` finds no own
provider and its `_exports` list is empty, and `CEight`'s parent is the
null context. -/
theorem C8_transitive_export_gated (fuel : Nat) (nX nA nB nC : String)
    (mX : List String) (sX rX cX : Bool) :
    get_dependency (envC8 nX nA nB nC mX sX rX cX) (fuel + 2) initSt 3 []
        (get_name (envC8 nX nA nB nC mX sX rX cX) 0) =
      (initSt, .err (.injection nC (get_name (envC8 nX nA nB nC mX sX rX cX) 0))) := by
  show run (envC8 nX nA nB nC mX sX rX cX) (fuel + 1 + 1) initSt 3
      (.getDep [] (get_name (envC8 nX nA nB nC mX sX rX cX) 0)) = _
  have hce : can_export (envC8 nX nA nB nC mX sX rX cX) (fuel + 1) (2 :: [3])
      (get_name (envC8 nX nA nB nC mX sX rX cX) 0) = some false := by
    simp [can_export, visRun, ctxProviders, ctxExports, classOf, envC8]
  have hfe : findExporter (envC8 nX nA nB nC mX sX rX cX) (fuel + 1)
      (get_name (envC8 nX nA nB nC mX sX rX cX) 0) [3] [2] = some none := by
    simp [findExporter, hce]
  have hcp : can_provide (envC8 nX nA nB nC mX sX rX cX) (fuel + 1) []
      (get_name (envC8 nX nA nB nC mX sX rX cX) 0) = some false := rfl
  have h1 : depsLookup (nodeAt initSt []).deps (get_name (envC8 nX nA nB nC mX sX rX cX) 0) =
      none := rfl
  have h5 : chainAt (envC8 nX nA nB nC mX sX rX cX) 3 [] = some [3] := rfl
  have h3 : ctxProviders (envC8 nX nA nB nC mX sX rX cX) 3 = [] := rfl
  have h6 : findProvider (envC8 nX nA nB nC mX sX rX cX)
      (get_name (envC8 nX nA nB nC mX sX rX cX) 0) [] = none := rfl
  have h4 : ctxImports (envC8 nX nA nB nC mX sX rX cX) 3 = [2] := rfl
  have h7 : (classOf (envC8 nX nA nB nC mX sX rX cX) 3).clsName = nC := rfl
  simp only [run, h1, h5, h3, h6, h4, hfe, hcp, h7]

theorem nodesLookup_filter_ne (l : List (List Nat × NodeSt)) (p q : List Nat) :
    nodesLookup (l.filter (fun e => e.1 != p)) q =
      if q = p then none else nodesLookup l q := by
  induction l with
  | nil => simp [nodesLookup]
  | cons e rest ih =>
    by_cases he : e.1 = p
    · by_cases hq : e.1 = q
      · have hqp : q = p := hq.symm.trans he
        have h3 := ih
        rw [if_pos hqp, hqp] at h3
        simp [List.filter_cons, he, hqp, h3]
      · have h1 : ¬q = p := fun h => hq (he.trans h.symm)
        have h2 : ¬p = q := fun h => h1 h.symm
        simp [List.filter_cons, he, ih, h1, h2, nodesLookup, hq]
    · by_cases hq : e.1 = q
      · have h1 : ¬q = p := fun h => he (hq.trans h)
        simp [List.filter_cons, he, nodesLookup, hq, h1]
      · simp [List.filter_cons, he, nodesLookup, hq, ih]

/-- Reading a node after an update: the updated node at the updated path,
anything else untouched. -/
theorem nodeAt_updNode (st : St) (p : List Nat) (f : NodeSt → NodeSt) (q : List Nat) :
    nodeAt (updNode st p f) q = if q = p then f (nodeAt st p) else nodeAt st q := by
  by_cases h : q = p
  · simp [nodeAt, updNode, nodesLookup, h]
  · have h2 : ¬p = q := fun hh => h hh.symm
    simp [nodeAt, updNode, nodesLookup, h2, nodesLookup_filter_ne, h]

/-- Unwinding a stack of scoped-resource callbacks releases every one of
them, in stack order, regardless of which release hooks fail; the
exception that propagates (if any) is the one named by `lastFailure`. -/
theorem closeRun_resList (l : List (Nat × Bool)) : ∀ (fuel : Nat) (st : St),
    l.length ≤ fuel →
    closeRun fuel st (.closeAll (l.map (fun r => .res r.1 r.2))) =
      (⟨st.nodes, st.nextId, st.events ++ l.map (fun r => Event.released r.1)⟩,
       match lastFailure l with
       | none => Outcome.ok ()
       | some id => Outcome.err (.release id)) := by
  induction l with
  | nil =>
    intro fuel st _
    simp [closeRun, lastFailure]
  | cons r rest ih =>
    intro fuel st hf
    cases fuel with
    | zero => simp at hf
    | succ f =>
      have hrest : rest.length ≤ f := by simp at hf; omega
      have hrec := ih f ⟨st.nodes, st.nextId, st.events ++ [Event.released r.1]⟩ hrest
      by_cases hr : r.2
      · cases hlf : lastFailure rest with
        | none => simp [closeRun, logEvent, hr, hrec, hlf, lastFailure]
        | some id => simp [closeRun, logEvent, hr, hrec, hlf, lastFailure]
      · cases hlf : lastFailure rest with
        | none => simp [closeRun, logEvent, hr, hrec, hlf, lastFailure]
        | some id => simp [closeRun, logEvent, hr, hrec, hlf, lastFailure]

/-- C7: when a context node whose lifecycle stack holds the scoped
resources `regs` (head = most recently registered) exits, every registered
release hook is invoked exactly once, in stack order - that is, in exact
reverse order of registration - and a failing release hook does not
prevent the remaining releases: the event trace always extends by all of
`regs`, the stack is left empty, and the outcome is the exception of the
failing hook selected by `AsyncExitStack`'s chaining (success iff no hook
failed). -/
theorem C7_lifo_unwind (st : St) (path : List Nat) (regs : List (Nat × Bool)) (fuel : Nat)
    (hstack : (nodeAt st path).stack = regs.map (fun r => .res r.1 r.2))
    (hfuel : regs.length ≤ fuel) :
    (aexit fuel st path).1.events = st.events ++ regs.map (fun r => Event.released r.1) ∧
    (nodeAt (aexit fuel st path).1 path).stack = [] ∧
    (aexit fuel st path).2 = (match lastFailure regs with
      | none => Outcome.ok ()
      | some id => Outcome.err (.release id)) := by
  have hres := closeRun_resList regs fuel (clearStack st path) hfuel
  have haex : aexit fuel st path =
      (⟨(clearStack st path).nodes, (clearStack st path).nextId,
        (clearStack st path).events ++ regs.map (fun r => Event.released r.1)⟩,
       match lastFailure regs with
       | none => Outcome.ok ()
       | some id => Outcome.err (.release id)) := by
    unfold aexit
    rw [hstack]
    exact hres
  rw [haex]
  refine ⟨rfl, ?_, rfl⟩
  show (nodeAt (clearStack st path) path).stack = []
  simp [clearStack, nodeAt_updNode]

theorem C7_lifo_unwind_witness :
    (aexit 2 stC7 []).1.events =
      stC7.events ++ [(5, true), (9, false)].map (fun r => Event.released r.1) ∧
    (nodeAt (aexit 2 stC7 []).1 []).stack = [] ∧
    (aexit 2 stC7 []).2 = (match lastFailure [(5, true), (9, false)] with
      | none => Outcome.ok ()
      | some id => Outcome.err (.release id)) :=
  C7_lifo_unwind stC7 [] [(5, true), (9, false)] 2 (by decide) (by decide)

theorem visRun_mono (env : Env) (n : String) :
    ∀ (f g : Nat) (q : VisQuery) (b : Bool), f ≤ g →
      visRun env f q n = some b → visRun env g q n = some b := by
  intro f
  induction f with
  | zero =>
    intro g q b _ h
    match q with
    | .canProvide [] => cases g <;> simpa [visRun] using h
    | .canExport [] => cases g <;> simpa [visRun] using h
    | .provideScan [] pc => cases g <;> simpa [visRun] using h
    | .exportScan [] pc => cases g <;> simpa [visRun] using h
    | .canProvide (t :: anc) => simp [visRun] at h
    | .provideScan (i :: rest) pc => simp [visRun] at h
    | .canExport (t :: anc) => simp [visRun] at h
    | .exportScan (e :: rest) pc => simp [visRun] at h
  | succ f ih =>
    intro g q b hle h
    obtain ⟨g', rfl⟩ : ∃ g', g = g' + 1 := ⟨g - 1, by omega⟩
    have hfg : f ≤ g' := by omega
    match q with
    | .canProvide [] => simpa [visRun] using h
    | .canExport [] => simpa [visRun] using h
    | .provideScan [] pc => simpa [visRun] using h
    | .exportScan [] pc => simpa [visRun] using h
    | .canProvide (t :: anc) =>
      simp only [visRun] at h ⊢
      by_cases hp : ((ctxProviders env t).any (fun p => get_name env p == n)) = true
      · rw [if_pos hp] at h ⊢; exact h
      · rw [if_neg hp] at h ⊢
        cases hin : visRun env f (.provideScan (ctxImports env t) (t :: anc)) n with
        | none => simp [hin] at h
        | some bb =>
          simp only [hin] at h
          rw [ih g' _ bb hfg hin]
          cases bb with
          | true => exact h
          | false => exact ih g' _ b hfg h
    | .provideScan (i :: rest) pc =>
      simp only [visRun] at h ⊢
      cases hin : visRun env f (.canProvide (i :: pc)) n with
      | none => simp [hin] at h
      | some bb =>
        simp only [hin] at h
        rw [ih g' _ bb hfg hin]
        cases bb with
        | true => exact h
        | false => exact ih g' _ b hfg h
    | .canExport (t :: anc) =>
      simp only [visRun] at h ⊢
      by_cases hm : (!(classOf env t).isModule) = true
      · rw [if_pos hm] at h ⊢; exact h
      · rw [if_neg hm] at h ⊢
        by_cases hp : ((ctxProviders env t).any (fun p => get_name env p == n)) = true
        · rw [if_pos hp] at h ⊢; exact h
        · rw [if_neg hp] at h ⊢
          exact ih g' _ b hfg h
    | .exportScan (e :: rest) pc =>
      simp only [visRun] at h ⊢
      cases hin : visRun env f (.canProvide (e :: pc)) n with
      | none => simp [hin] at h
      | some bb =>
        simp only [hin] at h
        rw [ih g' _ bb hfg hin]
        cases bb with
        | true => exact h
        | false => exact ih g' _ b hfg h



/-- A fallen-through import loop: every import child answered `can_export`
with `False`. -/
theorem findExporter_none_mem (env : Env) (fuel : Nat) (n : String) (pc : List Nat) :
    ∀ l, findExporter env fuel n pc l = some none →
      ∀ i ∈ l, can_export env fuel (i :: pc) n = some false := by
  intro l
  induction l with
  | nil => intro _ i hi; cases hi
  | cons a rest ih =>
    intro h i hi
    simp only [findExporter] at h
    cases hce : can_export env fuel (a :: pc) n with
    | none => simp [hce] at h
    | some bb =>
      cases bb with
      | true => simp [hce] at h
      | false =>
        simp only [hce] at h
        have hrest : findExporter env fuel n pc rest = some none := by
          cases hfe : findExporter env fuel n pc rest with
          | none => simp [hfe] at h
          | some o =>
            cases o with
            | none => rfl
            | some j => simp [hfe] at h
        cases hi with
        | head => exact hce
        | tail _ hi2 => exact ih hrest i hi2

/-- A hit in the import loop: some import child answered `can_export` with
`True`. -/
theorem findExporter_some_mem (env : Env) (fuel : Nat) (n : String) (pc : List Nat) :
    ∀ l j, findExporter env fuel n pc l = some (some j) →
      ∃ i ∈ l, can_export env fuel (i :: pc) n = some true := by
  intro l
  induction l with
  | nil => intro j h; simp [findExporter] at h
  | cons a rest ih =>
    intro j h
    simp only [findExporter] at h
    cases hce : can_export env fuel (a :: pc) n with
    | none => simp [hce] at h
    | some bb =>
      cases bb with
      | true => exact ⟨a, List.mem_cons_self a rest, hce⟩
      | false =>
        simp only [hce] at h
        cases hfe : findExporter env fuel n pc rest with
        | none => simp [hfe] at h
        | some o =>
          cases o with
          | none => simp [hfe] at h
          | some j2 =>
            obtain ⟨i, hi, hct⟩ := ih j2 hfe
            exact ⟨i, List.mem_cons_of_mem a hi, hct⟩



theorem nodeAt_logEvent (st : St) (e : Event) (q : List Nat) :
    nodeAt (logEvent st e) q = nodeAt st q := rfl

theorem nodeAt_allocId (st : St) (q : List Nat) :
    nodeAt (allocId st) q = nodeAt st q := rfl

theorem deps_pushStack (st : St) (p : List Nat) (e : StackEntry) (q : List Nat) :
    (nodeAt (pushStack st p e) q).deps = (nodeAt st q).deps := by
  rw [pushStack, nodeAt_updNode]
  split
  · rename_i hqp
    rw [hqp]
  · rfl

theorem deps_setEntered (st : St) (p : List Nat) (id : Nat) (q : List Nat) :
    (nodeAt (setEntered st p id) q).deps = (nodeAt st q).deps := by
  rw [setEntered, nodeAt_updNode]
  split
  · rename_i hqp
    rw [hqp]
  · rfl

theorem depsLookup_cacheDep_self (st : St) (p : List Nat) (nm : String) (v : Nat) :
    depsLookup (nodeAt (cacheDep st p nm v) p).deps nm = some v := by
  rw [cacheDep, nodeAt_updNode, if_pos rfl]
  simp [depsLookup]

theorem depsLookup_cacheDep_ne (st : St) (p : List Nat) (nm : String) (v : Nat)
    (q : List Nat) (n : String) (h : ¬(q = p ∧ nm = n)) :
    depsLookup (nodeAt (cacheDep st p nm v) q).deps n = depsLookup (nodeAt st q).deps n := by
  rw [cacheDep, nodeAt_updNode]
  split
  · rename_i hqp
    have hnm : ¬nm = n := fun he => h ⟨hqp, he⟩
    rw [hqp]
    simp [depsLookup, hnm]
  · rfl



/-- No execution ever writes a dependency-cache entry for a (node, name)
pair at which the node statically matches nothing: cache writes happen
only in the own-provider and exporting-import branches of
`get_dependency`, and both require a static match. -/
theorem run_preserves_static_nomatch (env : Env) (root : Nat) (q : List Nat) (n : String)
    (hq : StaticNoMatch env root q n) :
    ∀ (fuel : Nat) (st : St) (cmd : Cmd),
      depsLookup (nodeAt (run env fuel st root cmd).1 q).deps n =
        depsLookup (nodeAt st q).deps n := by
  intro fuel
  induction fuel with
  | zero => intro st cmd; rfl
  | succ fuel ih =>
    intro st cmd
    match cmd with
    | .getDep path name =>
      simp only [run]
      cases h1 : depsLookup (nodeAt st path).deps name with
      | some v => rfl
      | none =>
        dsimp only
        cases h2 : chainAt env root path with
        | none => rfl
        | some ch =>
          cases ch with
          | nil => rfl
          | cons t anc =>
            dsimp only
            cases h3 : findProvider env name (ctxProviders env t) with
            | some k =>
              dsimp only
              rcases h4 : run env fuel st root (.enter (path ++ [k])) with ⟨st1, out⟩
              have h5 := ih st (.enter (path ++ [k]))
              rw [h4] at h5
              cases out with
              | ok v =>
                dsimp only
                have hguard : ¬(q = path ∧ name = n) := by
                  rintro ⟨rfl, rfl⟩
                  have hfp := (hq t anc h2).1
                  exact absurd (hfp.symm.trans h3) (by simp)
                rw [depsLookup_cacheDep_ne _ _ _ _ _ _ hguard, deps_pushStack]
                exact h5
              | err e => exact h5
              | oom => exact h5
            | none =>
              dsimp only
              cases h3b : findExporter env fuel name (t :: anc) (ctxImports env t) with
              | none => rfl
              | some o =>
                cases o with
                | some j =>
                  dsimp only
                  rcases h4 : run env fuel st root
                      (.enter (path ++ [(ctxProviders env t).length + j])) with ⟨st1, out⟩
                  have h5 := ih st (.enter (path ++ [(ctxProviders env t).length + j]))
                  rw [h4] at h5
                  cases out with
                  | ok v =>
                    dsimp only
                    rcases h6 : run env fuel
                        (pushStack st1 path (.ctx (path ++ [(ctxProviders env t).length + j])))
                        root (.getDep (path ++ [(ctxProviders env t).length + j]) name) with
                      ⟨st2, out2⟩
                    have h7 := ih
                        (pushStack st1 path (.ctx (path ++ [(ctxProviders env t).length + j])))
                        (.getDep (path ++ [(ctxProviders env t).length + j]) name)
                    rw [h6] at h7
                    cases out2 with
                    | ok v2 =>
                      dsimp only
                      have hguard : ¬(q = path ∧ name = n) := by
                        rintro ⟨rfl, rfl⟩
                        obtain ⟨i, hi, htrue⟩ := findExporter_some_mem env fuel _ (t :: anc)
                          (ctxImports env t) j h3b
                        exact (hq t anc h2).2 i hi fuel htrue
                      rw [depsLookup_cacheDep_ne _ _ _ _ _ _ hguard]
                      rw [h7, deps_pushStack]
                      exact h5
                    | err e => rw [h7, deps_pushStack]; exact h5
                    | oom => rw [h7, deps_pushStack]; exact h5
                  | err e => exact h5
                  | oom => exact h5
                | none =>
                  dsimp only
                  cases h4 : can_provide env fuel anc name with
                  | none => rfl
                  | some bb =>
                    cases bb with
                    | false => rfl
                    | true =>
                      dsimp only
                      cases path with
                      | nil => rfl
                      | cons p0 prest =>
                        exact ih st (.getDep (p0 :: prest).dropLast name)
    | .enter path =>
      simp only [run]
      cases h2 : chainAt env root path with
      | none => rfl
      | some ch =>
        cases ch with
        | nil => rfl
        | cons t anc =>
          dsimp only
          cases hae : (nodeAt st path).aentered with
          | true => rfl
          | false =>
            rcases h3 : run env fuel st root (.resolveAll path (classOf env t).manifest) with
              ⟨st1, out⟩
            have h5 := ih st (.resolveAll path (classOf env t).manifest)
            rw [h3] at h5
            cases out with
            | err e => exact h5
            | oom => exact h5
            | ok u =>
              dsimp only
              cases hcf : (classOf env t).constructFails with
              | true => exact h5
              | false =>
                cases hsc : (classOf env t).isScoped with
                | true =>
                  simp only [reduceIte, Bool.false_eq_true, if_false]
                  rw [deps_setEntered, deps_pushStack, nodeAt_logEvent,
                      nodeAt_logEvent, nodeAt_allocId]
                  exact h5
                | false =>
                  simp only [reduceIte, Bool.false_eq_true, if_false]
                  rw [deps_setEntered, nodeAt_logEvent, nodeAt_allocId]
                  exact h5
    | .resolveAll path names =>
      cases names with
      | nil => rfl
      | cons nm rest =>
        simp only [run]
        rcases h3 : run env fuel st root (.getDep path nm) with ⟨st1, out⟩
        have h5 := ih st (.getDep path nm)
        rw [h3] at h5
        cases out with
        | ok u => rw [ih st1 (.resolveAll path rest)]; exact h5
        | err e => exact h5
        | oom => exact h5



/-- The fall-through facts of one `get_dependency` activation make the
static no-match predicate. -/
theorem staticNoMatch_of_fallthrough (env : Env) (root : Nat) (path : List Nat)
    (t : Nat) (anc : List Nat) (name : String) (fuel : Nat)
    (h2 : chainAt env root path = some (t :: anc))
    (h3 : findProvider env name (ctxProviders env t) = none)
    (h3b : findExporter env fuel name (t :: anc) (ctxImports env t) = some none) :
    StaticNoMatch env root path name := by
  intro t' anc' hch
  rw [h2] at hch
  injection hch with hch2
  obtain ⟨rfl, rfl⟩ : t = t' ∧ anc = anc' := by
    constructor
    · exact (List.cons.injEq t anc t' anc').mp hch2 |>.1
    · exact (List.cons.injEq t anc t' anc').mp hch2 |>.2
  refine ⟨h3, ?_⟩
  intro j hj f hex
  have hfalse := findExporter_none_mem env fuel name (t :: anc) (ctxImports env t) h3b j hj
  have hmax1 : visRun env (max f fuel) (.canExport (j :: t :: anc)) name = some true :=
    visRun_mono env name f (max f fuel) _ true (le_max_left f fuel) hex
  have hmax2 : visRun env (max f fuel) (.canExport (j :: t :: anc)) name = some false :=
    visRun_mono env name fuel (max f fuel) _ false (le_max_right f fuel) hfalse
  rw [hmax1] at hmax2
  exact absurd hmax2 (by simp)

/-- Soundness of a successful `get_dependency`: the returned instance is
anchored in the final state - cached on the node itself (the own-provider
and import branches cache; a cache hit is already cached) or, for the
parent-delegation branch, anchored at the parent with nothing cached on
the delegating node. -/
theorem getDep_resolvesTo (env : Env) (root : Nat) :
    ∀ (fuel : Nat) (st : St) (path : List Nat) (name : String) (st' : St) (v : Nat),
      run env fuel st root (.getDep path name) = (st', .ok v) →
      ResolvesTo env root st' name v path := by
  intro fuel
  induction fuel with
  | zero =>
    intro st path name st' v h
    exact absurd h (by simp [run])
  | succ fuel ih =>
    intro st path name st' v h
    simp only [run] at h
    cases h1 : depsLookup (nodeAt st path).deps name with
    | some w =>
      simp only [h1] at h
      injection h with hst ho
      injection ho with hv
      subst hst
      subst hv
      exact ResolvesTo.cached path h1
    | none =>
      simp only [h1] at h
      cases h2 : chainAt env root path with
      | none => simp only [h2] at h; simp at h
      | some ch =>
        cases ch with
        | nil => simp only [h2] at h; simp at h
        | cons t anc =>
          simp only [h2] at h
          cases h3 : findProvider env name (ctxProviders env t) with
          | some k =>
            simp only [h3] at h
            rcases h4 : run env fuel st root (.enter (path ++ [k])) with ⟨st1, out⟩
            rw [h4] at h
            cases out with
            | ok w =>
              injection h with hst ho
              injection ho with hv
              subst hst
              subst hv
              exact ResolvesTo.cached path (depsLookup_cacheDep_self _ _ _ _)
            | err e => simp at h
            | oom => simp at h
          | none =>
            simp only [h3] at h
            cases h3b : findExporter env fuel name (t :: anc) (ctxImports env t) with
            | none => simp only [h3b] at h; simp at h
            | some o =>
              cases o with
              | some j =>
                simp only [h3b] at h
                rcases h4 : run env fuel st root
                    (.enter (path ++ [(ctxProviders env t).length + j])) with ⟨st1, out⟩
                rw [h4] at h
                cases out with
                | ok w1 =>
                  dsimp only at h
                  rcases h6 : run env fuel
                      (pushStack st1 path (.ctx (path ++ [(ctxProviders env t).length + j])))
                      root (.getDep (path ++ [(ctxProviders env t).length + j]) name) with
                    ⟨st2, out2⟩
                  rw [h6] at h
                  cases out2 with
                  | ok w2 =>
                    injection h with hst ho
                    injection ho with hv
                    subst hst
                    subst hv
                    exact ResolvesTo.cached path (depsLookup_cacheDep_self _ _ _ _)
                  | err e => simp at h
                  | oom => simp at h
                | err e => simp at h
                | oom => simp at h
              | none =>
                simp only [h3b] at h
                cases h4 : can_provide env fuel anc name with
                | none => simp only [h4] at h; simp at h
                | some bb =>
                  cases bb with
                  | false => simp only [h4] at h; simp at h
                  | true =>
                    simp only [h4] at h
                    cases path with
                    | nil => simp at h
                    | cons p0 prest =>
                      dsimp only at h
                      have hsnm : StaticNoMatch env root (p0 :: prest) name :=
                        staticNoMatch_of_fallthrough env root (p0 :: prest) t anc name fuel
                          h2 h3 h3b
                      have hrec := ih st ((p0 :: prest).dropLast) name st' v h
                      refine ResolvesTo.up (p0 :: prest) ?_ hsnm hrec
                      have hnw := run_preserves_static_nomatch env root (p0 :: prest) name hsnm
                        fuel st (.getDep ((p0 :: prest).dropLast) name)
                      rw [h] at hnw
                      exact hnw.trans h1



/-- Stability: once a result is anchored in a state, any further
`get_dependency` call for the same name on the same node that returns at
all returns that very instance. -/
theorem resolvesTo_getDep (env : Env) (root : Nat) (name : String) (v : Nat) (st : St) :
    ∀ (path : List Nat), ResolvesTo env root st name v path →
      ∀ (fuel : Nat) (st2 : St) (w : Nat),
        run env fuel st root (.getDep path name) = (st2, .ok w) → w = v := by
  intro path hres
  induction hres with
  | cached q hc =>
    intro fuel st2 w h
    cases fuel with
    | zero => exact absurd h (by simp [run])
    | succ fuel =>
      simp only [run, hc] at h
      injection h with hst ho
      injection ho with hv
      exact hv.symm
  | up q hd hsnm hrec ih =>
    intro fuel st2 w h
    cases fuel with
    | zero => exact absurd h (by simp [run])
    | succ fuel =>
      simp only [run, hd] at h
      cases h2 : chainAt env root q with
      | none => simp only [h2] at h; simp at h
      | some ch =>
        cases ch with
        | nil => simp only [h2] at h; simp at h
        | cons t anc =>
          simp only [h2] at h
          have h3 : findProvider env name (ctxProviders env t) = none := (hsnm t anc h2).1
          simp only [h3] at h
          cases h3b : findExporter env fuel name (t :: anc) (ctxImports env t) with
          | none => simp only [h3b] at h; simp at h
          | some o =>
            cases o with
            | some j =>
              exfalso
              obtain ⟨i, hi, htrue⟩ := findExporter_some_mem env fuel name (t :: anc)
                (ctxImports env t) j h3b
              exact (hsnm t anc h2).2 i hi fuel htrue
            | none =>
              simp only [h3b] at h
              cases h4 : can_provide env fuel anc name with
              | none => simp only [h4] at h; simp at h
              | some bb =>
                cases bb with
                | false => simp only [h4] at h; simp at h
                | true =>
                  simp only [h4] at h
                  cases q with
                  | nil => dsimp only at h; simp at h
                  | cons p0 prest =>
                    dsimp only at h
                    exact ih fuel st2 w h

/-- C4: singleton-per-scope.  When `get_dependency` on one node returns an
instance, a second `get_dependency` call for the same name on the same
node, run on the resulting state with any stack budget, returns the
identical instance: the first call memoizes it on the node (or, in the
parent-delegation branch, the ancestor that resolved it keeps it, the
delegating node's cache stays empty, and the repeated delegation reads
that same cache). -/
theorem C4_singleton_per_scope (env : Env) (root : Nat) (fuel1 fuel2 : Nat)
    (st st1 st2 : St) (path : List Nat) (name : String) (v w : Nat)
    (h1 : get_dependency env fuel1 st root path name = (st1, .ok v))
    (h2 : get_dependency env fuel2 st1 root path name = (st2, .ok w)) :
    w = v :=
  resolvesTo_getDep env root name v st1 path
    (getDep_resolvesTo env root fuel1 st path name st1 v h1) fuel2 st2 w h2





theorem C4_singleton_per_scope_witness : (0 : Nat) = 0 :=
  C4_singleton_per_scope envC4 1 8 8 initSt c4st1 c4st2 [] "xfour" 0 0 (by decide) (by decide)

/-- C5 as amended: when `get_dependency` on a node falls through to parent
delegation (no own provider matches and no import exports the name) and
the parent-delegated resolution succeeds, the result is returned but *not*
cached on the delegating node - its cache entry for that name stays absent
(line 183 returns the parent's result directly; the caching happens on the
ancestor that actually resolved the name). -/
theorem C5_amended_delegation_result_not_cached (env : Env) (root : Nat) (fuel : Nat) (st st' : St)
    (path : List Nat) (name : String) (v : Nat)
    (hd : depsLookup (nodeAt st path).deps name = none)
    (hs : StaticNoMatch env root path name)
    (h : get_dependency env fuel st root path name = (st', .ok v)) :
    depsLookup (nodeAt st' path).deps name = none := by
  have hnw := run_preserves_static_nomatch env root path name hs fuel st (.getDep path name)
  rw [show run env fuel st root (.getDep path name) = (st', .ok v) from h] at hnw
  exact hnw.trans hd

theorem C5_amended_delegation_result_not_cached_witness : depsLookup (nodeAt c5st1 [1]).deps "xfive" = none :=
  C5_amended_delegation_result_not_cached envC5 2 32 initSt c5st1 [1] "xfive" 0 (by decide)
    (by
      intro t anc hch
      have heq : some ([1, 2] : List Nat) = some (t :: anc) :=
        (by decide : chainAt envC5 2 [1] = some [1, 2]).symm.trans hch
      injection heq with heq2
      obtain ⟨rfl, rfl⟩ : 1 = t ∧ [2] = anc := by
        constructor
        · exact ((List.cons.injEq 1 [2] t anc).mp heq2).1
        · exact ((List.cons.injEq 1 [2] t anc).mp heq2).2
      refine ⟨by decide, ?_⟩
      intro j hj f hex
      rw [(by decide : ctxImports envC5 1 = [])] at hj
      cases hj)
    (by decide)

end Deei
